import Mathlib

/-!
Verification of the grocery-cart core: a shallow embedding of
`dummy_frontend_api.py` (the four cart endpoints over the in-memory
`cart_storage` dict) and `voice_agent_working.py` (the HTTP-client helpers
`grocery_api_add_item` / `grocery_api_remove_item` and the `GroceryAgent`
tool methods), together with theorems settling the specification claims.

Python strings are modelled as Lean `String`; `str.lower`, `str.strip`,
`str.rstrip("s")` and `str.endswith("s")` are modelled character-wise on
`String.data`.  The `cart_storage` dict is modelled as an insertion-ordered
association list (Python dicts preserve insertion order; updating an
existing key keeps its position, inserting appends).  Quantities are `Int`
(Python ints).  HTTP-level failure (`HTTPException` 400) is modelled by an
explicit `EndpointReply.httpError` constructor; the client helpers check
the status code just as the Python code does.
-/

/-! Section: Python string primitives -/

/-- Python `str.lower()` restricted to the basic-latin case handled by
`Char.toLower` (item names are ASCII). -/
def pyLower (s : String) : String :=
  ⟨s.data.map Char.toLower⟩

/-- Drop leading whitespace, then trailing whitespace: `str.strip()`. -/
def stripChars (l : List Char) : List Char :=
  ((l.dropWhile Char.isWhitespace).reverse.dropWhile Char.isWhitespace).reverse

/-- Python `str.strip()`. -/
def pyStrip (s : String) : String :=
  ⟨stripChars s.data⟩

/-- The composite `s.lower().strip()`, the normalization both endpoints apply. -/
def lowerStrip (s : String) : String :=
  pyStrip (pyLower s)

/-- Python `str.endswith("s")`. -/
def pyEndsWithS (s : String) : Bool :=
  s.data.getLast? == some 's'

/-- Python `str.rstrip("s")`: remove every trailing `'s'`. -/
def pyRstripS (s : String) : String :=
  ⟨(s.data.reverse.dropWhile (· == 's')).reverse⟩

/-! Section: Data model: `cart_storage` and response shapes -/

/-- The `cart_storage : Dict[str, int]` dict, as an insertion-ordered
association list. -/
abbrev Cart := List (String × Int)

/-- Read access `key in cart_storage` / `cart_storage[key]`: value of the
first (under the dict invariant, only) entry with this key. -/
def cartLookup (cart : Cart) (key : String) : Option Int :=
  (cart.find? (fun p => p.1 == key)).map (·.2)

/-- Membership test `key in cart_storage`. -/
def cartContains (cart : Cart) (key : String) : Bool :=
  (cartLookup cart key).isSome

/-- Update `cart_storage[key] += q` (position preserved, as in a Python dict). -/
def cartIncr (cart : Cart) (key : String) (q : Int) : Cart :=
  cart.map (fun p => if p.1 == key then (p.1, p.2 + q) else p)

/-- Insertion `cart_storage[key] = q` for a fresh key (appended, insertion order). -/
def cartInsert (cart : Cart) (key : String) (q : Int) : Cart :=
  cart ++ [(key, q)]

/-- Deletion `del cart_storage[key]`. -/
def cartErase (cart : Cart) (key : String) : Cart :=
  cart.filter (fun p => !(p.1 == key))

/-- Update `cart_storage[key] -= q` (position preserved). -/
def cartDecr (cart : Cart) (key : String) (q : Int) : Cart :=
  cart.map (fun p => if p.1 == key then (p.1, p.2 - q) else p)

/-- The keys of the cart, in iteration order. -/
def cartKeys (cart : Cart) : List String :=
  cart.map (·.1)

/-- Total `sum(cart_storage.values())`. -/
def totalItems (cart : Cart) : Int :=
  (cart.map (·.2)).sum

/-- The `CartResponse` pydantic model: `{success, message, cart_items,
total_items}`; `cart_items` is the `[{"item": k, "quantity": v}]` snapshot
in iteration order. -/
structure CartResponse where
  success : Bool
  message : String
  cart_items : List (String × Int)
  total_items : Int
deriving DecidableEq, Repr

/-- Outcome of one endpoint call: a 200 reply carrying a `CartResponse`,
or an `HTTPException` status (400 for invalid quantity). -/
inductive EndpointReply where
  | ok (result : CartResponse)
  | httpError (status : Nat)
deriving DecidableEq, Repr

/-- `success` of a reply as the client sees it (a non-200 reply is treated
as failure). -/
def EndpointReply.isSuccess : EndpointReply → Bool
  | .ok result => result.success
  | .httpError _ => false

/-- The `CartResponse` carried by a 200 reply (placeholder on an error
reply; only used where a 200 is guaranteed). -/
def EndpointReply.respOf : EndpointReply → CartResponse
  | .ok result => result
  | .httpError _ => ⟨false, "", [], 0⟩

/-! Section: Message strings (the `f`-strings of the source) -/

def addedMsg (q : Int) (name : String) : String :=
  "Successfully added " ++ toString q ++ " " ++ name ++ " to cart"

def notInCartMsg (name : String) : String :=
  name ++ " is not in your cart"

def removedAllMsg (q : Int) (name : String) : String :=
  "Removed all " ++ toString q ++ " " ++ name ++ " from cart"

def removedMsg (q : Int) (name : String) : String :=
  "Removed " ++ toString q ++ " " ++ name ++ " from cart"

def viewMsg (total : Int) : String :=
  "Cart contains " ++ toString total ++ " items"

def clearedMsg (n : Nat) : String :=
  "Cart cleared successfully. Removed " ++ toString n ++ " item types."

def addFailedMsg (name : String) (status : Nat) : String :=
  "Failed to add " ++ name ++ " to cart. Status: " ++ toString status

def removeFailedMsg (name : String) (status : Nat) : String :=
  "Failed to remove " ++ name ++ " from cart. Status: " ++ toString status

/-! Section: The four endpoints of `dummy_frontend_api.py` -/

/-- Endpoint `POST /api/cart/add` (`add_to_cart` in `dummy_frontend_api.py`):
reject `quantity <= 0` with HTTP 400, lower-case and strip the name, then
increment an existing key or append a new one. -/
def add_to_cart (cart : Cart) (item_name : String) (quantity : Int) :
    EndpointReply × Cart :=
  if quantity ≤ 0 then (.httpError 400, cart)
  else
    let key := lowerStrip item_name
    let cart' :=
      if cartContains cart key then cartIncr cart key quantity
      else cartInsert cart key quantity
    (.ok ⟨true, addedMsg quantity item_name, cart', totalItems cart'⟩, cart')

/-- Endpoint `POST /api/cart/remove` (`remove_from_cart` in
`dummy_frontend_api.py`): reject `quantity <= 0` with HTTP 400, lower-case
and strip the name, report not-found for an absent key, otherwise delete
the key (stored value `<=` requested) or decrement it. -/
def remove_from_cart (cart : Cart) (item_name : String) (quantity : Int) :
    EndpointReply × Cart :=
  if quantity ≤ 0 then (.httpError 400, cart)
  else
    let key := lowerStrip item_name
    match cartLookup cart key with
    | none =>
        (.ok ⟨false, notInCartMsg item_name, cart, totalItems cart⟩, cart)
    | some stored =>
        if stored ≤ quantity then
          let cart' := cartErase cart key
          (.ok ⟨true, removedAllMsg stored item_name, cart',
            totalItems cart'⟩, cart')
        else
          let cart' := cartDecr cart key quantity
          (.ok ⟨true, removedMsg quantity item_name, cart',
            totalItems cart'⟩, cart')

/-- Endpoint `GET /api/cart/view` (`view_cart`): snapshot of the cart. -/
def view_cart (cart : Cart) : CartResponse :=
  ⟨true, viewMsg (totalItems cart), cart, totalItems cart⟩

/-- Endpoint `DELETE /api/cart/clear` (`clear_cart`): empty the storage and report
`len(cart_storage)` item types removed. -/
def clear_cart (cart : Cart) : CartResponse × Cart :=
  (⟨true, clearedMsg cart.length, [], 0⟩, [])

/-! Section: The client helpers of `voice_agent_working.py` -/

/-- What a `grocery_api_*` helper hands back to the agent: either the
parsed JSON of a 200 reply, or one of the locally built error dicts. -/
inductive ClientResult where
  | api (result : CartResponse)
  | failed (message : String)
deriving DecidableEq, Repr

/-- Accessor `result.get("success", False)` / `result["success"]`. -/
def ClientResult.isSuccess : ClientResult → Bool
  | .api result => result.success
  | .failed _ => false

/-- The name normalization at the top of `grocery_api_add_item`
(lines 36-43 of `voice_agent_working.py`): lower-case and strip; keep a
plural-looking name (ends in `'s'`, length > 1); otherwise the ternary
appends `'s'` unless the name already ends in `'s'`. -/
def normalizeItemName (item_name : String) : String :=
  let normalized_name := lowerStrip item_name
  if pyEndsWithS normalized_name && decide (normalized_name.length > 1) then
    normalized_name
  else
    if ¬ pyEndsWithS normalized_name then normalized_name ++ "s"
    else normalized_name

/-- Client helper `grocery_api_add_item`: normalize the name, POST it to
`/api/cart/add`, return the parsed reply (or an error dict on non-200). -/
def grocery_api_add_item (cart : Cart) (item_name : String)
    (quantity : Int) : ClientResult × Cart :=
  let final_name := normalizeItemName item_name
  let reply := add_to_cart cart final_name quantity
  match reply.1 with
  | .ok result => (.api result, reply.2)
  | .httpError status => (.failed (addFailedMsg item_name status), reply.2)

/-- The matching patterns of the smart-matching loop in
`grocery_api_remove_item` (lines 112-115 of `voice_agent_working.py`). -/
def fuzzyMatches (item_lower cart_item_name : String) : Bool :=
  item_lower == cart_item_name ||
  item_lower ++ "s" == cart_item_name ||
  item_lower == cart_item_name ++ "s" ||
  pyRstripS item_lower == pyRstripS cart_item_name

/-- The `for cart_item in cart_items` retry loop of
`grocery_api_remove_item`: on the first matching snapshot entry, re-POST
the remove with the stored name and return the 200 reply; a non-200 retry
falls through to the next entry; no match returns the original
(not-found) result. -/
def fuzzyLoop (cart : Cart) (items : List (String × Int))
    (item_lower : String) (quantity : Int) (orig : CartResponse) :
    ClientResult × Cart :=
  match items with
  | [] => (.api orig, cart)
  | p :: rest =>
      if fuzzyMatches item_lower (lowerStrip p.1) then
        let retry := remove_from_cart cart p.1 quantity
        match retry.1 with
        | .ok result => (.api result, retry.2)
        | .httpError _ => fuzzyLoop retry.2 rest item_lower quantity orig
      else fuzzyLoop cart rest item_lower quantity orig

/-- Client helper `grocery_api_remove_item`: POST the raw name to `/api/cart/remove`;
on a 200 reply with `success=False`, GET `/api/cart/view` and run the
smart-matching retry loop over the snapshot. -/
def grocery_api_remove_item (cart : Cart) (item_name : String)
    (quantity : Int) : ClientResult × Cart :=
  let first := remove_from_cart cart item_name quantity
  match first.1 with
  | .httpError status =>
      (.failed (removeFailedMsg item_name status), first.2)
  | .ok result =>
      if result.success then (.api result, first.2)
      else
        let cart_items := (view_cart first.2).cart_items
        let item_lower := lowerStrip item_name
        fuzzyLoop first.2 cart_items item_lower quantity result

/-! Section: The `GroceryAgent` tool methods -/

/-- What a tool call returns to the LLM: the confirmation string, the
could-not-do-it string, or the caught-exception string (the `ValueError`
raised by the manual validation lands here). -/
inductive AgentReply where
  | confirmed (text : String)
  | failed (text : String)
  | error (text : String)
deriving DecidableEq, Repr

def agentErrorMsg (e : String) : String :=
  "Sorry, there was an error processing your request: " ++ e

def agentAddedMsg (q : Int) (name : String) : String :=
  "Perfect! I\x27ve successfully added " ++ toString q ++ " " ++ name ++
    " to your cart. Is there anything else you\x27d like to add?"

def agentAddFailedMsg (name : String) : String :=
  "I\x27m sorry, I couldn\x27t add " ++ name ++
    " to your cart. Please try again."

def agentRemovedMsg (q : Int) (name : String) : String :=
  "Done! I\x27ve successfully removed " ++ toString q ++ " " ++ name ++
    " from your cart. Anything else you\x27d like me to help with?"

def agentRemoveFailedMsg (name : String) : String :=
  "I\x27m sorry, I couldn\x27t remove " ++ name ++
    " from your cart. Please try again."

/-- Tool `GroceryAgent.add_to_cart`: manual validation (`quantity < 1`, empty
or whitespace-only name) raises `ValueError` (caught into the error
reply); otherwise the stripped name is sent to `grocery_api_add_item`. -/
def agent_add_to_cart (cart : Cart) (quantity : Int) (item_name : String) :
    AgentReply × Cart :=
  if quantity < 1 then (.error (agentErrorMsg "Quantity must be positive"), cart)
  else if item_name == "" || (pyStrip item_name).length == 0 then
    (.error (agentErrorMsg "Item name cannot be empty"), cart)
  else
    let stripped := pyStrip item_name
    let call := grocery_api_add_item cart stripped quantity
    if call.1.isSuccess then
      (.confirmed (agentAddedMsg quantity stripped), call.2)
    else (.failed (agentAddFailedMsg stripped), call.2)

/-- Tool `GroceryAgent.remove_from_cart`: same manual validation; the stripped
name is sent to `grocery_api_remove_item`. -/
def agent_remove_from_cart (cart : Cart) (quantity : Int)
    (item_name : String) : AgentReply × Cart :=
  if quantity < 1 then (.error (agentErrorMsg "Quantity must be positive"), cart)
  else if item_name == "" || (pyStrip item_name).length == 0 then
    (.error (agentErrorMsg "Item name cannot be empty"), cart)
  else
    let stripped := pyStrip item_name
    let call := grocery_api_remove_item cart stripped quantity
    if call.1.isSuccess then
      (.confirmed (agentRemovedMsg quantity stripped), call.2)
    else (.failed (agentRemoveFailedMsg stripped), call.2)

/-! Section: Spec-side definitions (for refinement comparison with the code) -/

/-- Modelled from the spec: the claimed add-path normalization — lower-case
the trimmed string; keep it if it already ends in `s`; otherwise append
`s`. -/
def specNormalize (s : String) : String :=
  let t := lowerStrip s
  if pyEndsWithS t then t else t ++ "s"

/-- Modelled from the spec: the four fuzzy equivalence rules of remove
step 3, applied to the lower-cased trimmed raw name and a stored key:
(a) case-insensitive equality, (b) `rawName + "s" == key`,
(c) `rawName == key + "s"`, (d) all trailing `s` stripped on both sides. -/
def specRuleMatch (rawName key : String) : Bool :=
  pyLower rawName == pyLower key ||
  rawName ++ "s" == key ||
  rawName == key ++ "s" ||
  pyRstripS rawName == pyRstripS key

/-- Modelled from the spec: the first key in the store's iteration order
satisfying one of the fuzzy rules. -/
def specFirstFuzzy (cart : Cart) (raw : String) : Option String :=
  (cart.find? (fun p => specRuleMatch (lowerStrip raw) p.1)).map (·.1)

/-- Claim C1 as stated: whenever the *raw* name does not match a stored
key exactly, the operation behaves as removal from the first fuzzy-rule
match (or reports not-found leaving the cart unchanged). -/
def C1Claim (cart : Cart) (raw : String) (q : Int) : Prop :=
  raw ∉ cartKeys cart →
    (∀ k, specFirstFuzzy cart raw = some k →
        grocery_api_remove_item cart raw q =
          (.api (remove_from_cart cart k q).1.respOf,
           (remove_from_cart cart k q).2)) ∧
    (specFirstFuzzy cart raw = none →
        (grocery_api_remove_item cart raw q).1.isSuccess = false ∧
        (grocery_api_remove_item cart raw q).2 = cart)

/-- Claim C2 as stated: the first step of a remove looks up the raw name
verbatim, so it finds something exactly when the verbatim name is a stored
key. -/
def C2Claim (cart : Cart) (raw : String) (q : Int) : Prop :=
  (remove_from_cart cart raw q).1.isSuccess = true ↔ raw ∈ cartKeys cart

/-- Claim C4, empty-name half, as stated for the add endpoint: a request
whose name is empty after trimming is rejected and leaves the cart
unchanged. -/
def C4EmptyNameClaim (cart : Cart) (name : String) (q : Int) : Prop :=
  pyStrip name = "" →
    (add_to_cart cart name q).1.isSuccess = false ∧
    (add_to_cart cart name q).2 = cart

/-- Quantity held for a key, 0 when absent (the quantity a subsequent
read observes). -/
def qtyOf (cart : Cart) (k : String) : Int :=
  (cartLookup cart k).getD 0

/-- Cart states reachable from the empty `cart_storage` through the four
endpoints (the only code that mutates the dict). -/
inductive ReachableCart : Cart → Prop where
  | empty : ReachableCart []
  | addStep (cart : Cart) (name : String) (q : Int) :
      ReachableCart cart → ReachableCart (add_to_cart cart name q).2
  | removeStep (cart : Cart) (name : String) (q : Int) :
      ReachableCart cart → ReachableCart (remove_from_cart cart name q).2
  | clearStep (cart : Cart) :
      ReachableCart cart → ReachableCart (clear_cart cart).2

/-! Section: Character-level lemmas -/

theorem char_toLower_def (c : Char) :
    c.toLower = if c.toNat ≥ 65 ∧ c.toNat ≤ 90 then Char.ofNat (c.toNat + 32)
                else c := rfl

theorem char_toNat_ofNat_valid {n : Nat} (h : Nat.isValidChar n) :
    (Char.ofNat n).toNat = n := by
  rw [Char.ofNat, dif_pos h]; rfl

theorem char_toNat_toLower_of_upper {c : Char}
    (h : c.toNat ≥ 65 ∧ c.toNat ≤ 90) : c.toLower.toNat = c.toNat + 32 := by
  rw [char_toLower_def, if_pos h]
  exact char_toNat_ofNat_valid (Or.inl (by omega))

theorem char_toLower_toLower (c : Char) : c.toLower.toLower = c.toLower := by
  by_cases h : c.toNat ≥ 65 ∧ c.toNat ≤ 90
  · have h32 := char_toNat_toLower_of_upper h
    rw [char_toLower_def c.toLower, if_neg (by omega)]
  · have hc : c.toLower = c := by rw [char_toLower_def, if_neg h]
    rw [hc, hc]

theorem char_isWhitespace_eq_false {c : Char} (h32 : c.toNat ≠ 32)
    (h9 : c.toNat ≠ 9) (h13 : c.toNat ≠ 13) (h10 : c.toNat ≠ 10) :
    c.isWhitespace = false := by
  simp only [Char.isWhitespace, Bool.or_eq_false_iff,
    decide_eq_false_iff_not]
  refine ⟨⟨⟨?_, ?_⟩, ?_⟩, ?_⟩ <;> intro he <;> subst he
  · exact h32 rfl
  · exact h9 rfl
  · exact h13 rfl
  · exact h10 rfl

theorem char_isWhitespace_toLower (c : Char) :
    c.toLower.isWhitespace = c.isWhitespace := by
  by_cases h : c.toNat ≥ 65 ∧ c.toNat ≤ 90
  · have h32 := char_toNat_toLower_of_upper h
    rw [char_isWhitespace_eq_false (c := c.toLower) (by omega) (by omega)
      (by omega) (by omega),
      char_isWhitespace_eq_false (c := c) (by omega) (by omega) (by omega)
      (by omega)]
  · have hc : c.toLower = c := by rw [char_toLower_def, if_neg h]
    rw [hc]

/-! Section: List-level lemmas about `dropWhile` and `stripChars` -/

theorem dropWhile_idem {α : Type} (p : α → Bool) (l : List α) :
    (l.dropWhile p).dropWhile p = l.dropWhile p := by
  induction l with
  | nil => rfl
  | cons a t ih =>
      by_cases h : p a
      · simp [List.dropWhile_cons, h, ih]
      · simp [List.dropWhile_cons, h]

theorem head_dropWhile_false {α : Type} (p : α → Bool) (l : List α)
    {c : α} (h : (l.dropWhile p).head? = some c) : p c = false := by
  induction l with
  | nil => simp [List.dropWhile] at h
  | cons a t ih =>
      rw [List.dropWhile_cons] at h
      by_cases hp : p a
      · rw [if_pos hp] at h; exact ih h
      · rw [if_neg hp] at h
        simp only [List.head?_cons, Option.some.injEq] at h
        subst h
        exact Bool.eq_false_iff.mpr hp

theorem dropWhile_eq_self_of_head {α : Type} (p : α → Bool) (l : List α)
    (h : ∀ c, l.head? = some c → p c = false) : l.dropWhile p = l := by
  cases l with
  | nil => rfl
  | cons a t =>
      rw [List.dropWhile_cons, if_neg]
      simp [h a rfl]

theorem getLast_dropWhile_mem {α : Type} (p : α → Bool) (l : List α)
    {c : α} (h : (l.dropWhile p).getLast? = some c) : l.getLast? = some c := by
  induction l with
  | nil => simp [List.dropWhile] at h
  | cons a t ih =>
      rw [List.dropWhile_cons] at h
      by_cases hp : p a
      · rw [if_pos hp] at h
        have ht := ih h
        cases t with
        | nil => simp at ht
        | cons b u => rw [List.getLast?_cons_cons]; exact ht
      · rw [if_neg hp] at h; exact h

theorem head_stripChars_false (l : List Char) {c : Char}
    (h : (stripChars l).head? = some c) : c.isWhitespace = false := by
  unfold stripChars at h
  rw [List.head?_reverse] at h
  have h2 := getLast_dropWhile_mem _ _ h
  rw [List.getLast?_reverse] at h2
  exact head_dropWhile_false _ _ h2

theorem getLast_stripChars_false (l : List Char) {c : Char}
    (h : (stripChars l).getLast? = some c) : c.isWhitespace = false := by
  unfold stripChars at h
  rw [List.getLast?_reverse] at h
  exact head_dropWhile_false _ _ h

theorem stripChars_stripChars (l : List Char) :
    stripChars (stripChars l) = stripChars l := by
  have h1 : (stripChars l).dropWhile Char.isWhitespace = stripChars l :=
    dropWhile_eq_self_of_head _ _ (fun c hc => head_stripChars_false l hc)
  have h2 : (stripChars l).reverse.dropWhile Char.isWhitespace =
      (stripChars l).reverse := by
    apply dropWhile_eq_self_of_head
    intro c hc
    rw [List.head?_reverse] at hc
    exact getLast_stripChars_false l hc
  show (((stripChars l).dropWhile Char.isWhitespace).reverse.dropWhile
      Char.isWhitespace).reverse = stripChars l
  rw [h1, h2, List.reverse_reverse]

theorem stripChars_append_s (l : List Char) :
    stripChars (stripChars l ++ ['s']) = stripChars l ++ ['s'] := by
  have hws : Char.isWhitespace 's' = false := by decide
  have h1 : (stripChars l ++ ['s']).dropWhile Char.isWhitespace =
      stripChars l ++ ['s'] := by
    apply dropWhile_eq_self_of_head
    intro c hc
    cases hsl : stripChars l with
    | nil => rw [hsl] at hc; simp at hc; rw [← hc]; exact hws
    | cons a t =>
        rw [hsl] at hc
        simp only [List.cons_append, List.head?_cons,
          Option.some.injEq] at hc
        subst hc
        exact head_stripChars_false l (by rw [hsl]; rfl)
  have h2 : (stripChars l ++ ['s']).reverse.dropWhile Char.isWhitespace =
      (stripChars l ++ ['s']).reverse := by
    apply dropWhile_eq_self_of_head
    intro c hc
    rw [List.reverse_append] at hc
    simp only [List.reverse_cons, List.reverse_nil, List.nil_append,
      List.singleton_append, List.head?_cons, Option.some.injEq] at hc
    rw [← hc]; exact hws
  show (((stripChars l ++ ['s']).dropWhile Char.isWhitespace).reverse.dropWhile
      Char.isWhitespace).reverse = stripChars l ++ ['s']
  rw [h1, h2, List.reverse_reverse]

theorem map_toLower_idem (l : List Char) :
    (l.map Char.toLower).map Char.toLower = l.map Char.toLower := by
  rw [List.map_map]
  congr 1
  funext c
  exact char_toLower_toLower c

theorem stripChars_map_toLower (l : List Char) :
    stripChars (l.map Char.toLower) = (stripChars l).map Char.toLower := by
  have hfun : (Char.isWhitespace ∘ Char.toLower) = Char.isWhitespace :=
    funext char_isWhitespace_toLower
  unfold stripChars
  rw [List.dropWhile_map, hfun, ← List.map_reverse, List.dropWhile_map,
    hfun, ← List.map_reverse]

/-! Section: String-level normalization lemmas -/

theorem pyLower_pyLower (s : String) : pyLower (pyLower s) = pyLower s :=
  congrArg String.mk (map_toLower_idem s.data)

theorem pyLower_pyStrip (s : String) :
    pyLower (pyStrip s) = pyStrip (pyLower s) :=
  (congrArg String.mk (stripChars_map_toLower s.data)).symm

theorem pyStrip_pyStrip (s : String) : pyStrip (pyStrip s) = pyStrip s :=
  congrArg String.mk (stripChars_stripChars s.data)

theorem pyLower_lowerStrip (s : String) :
    pyLower (lowerStrip s) = lowerStrip s := by
  unfold lowerStrip
  rw [pyLower_pyStrip, pyLower_pyLower]

theorem pyStrip_lowerStrip (s : String) :
    pyStrip (lowerStrip s) = lowerStrip s := by
  unfold lowerStrip
  rw [pyStrip_pyStrip]

theorem lowerStrip_idem (s : String) :
    lowerStrip (lowerStrip s) = lowerStrip s := by
  conv_lhs => rw [lowerStrip, pyLower_lowerStrip, pyStrip_lowerStrip]

theorem pyLower_eq_self_of_norm {k : String} (hk : lowerStrip k = k) :
    pyLower k = k := by
  conv_lhs => rw [← hk, pyLower_lowerStrip]
  exact hk

theorem lowerStrip_append_s (s : String) :
    lowerStrip (lowerStrip s ++ "s") = lowerStrip s ++ "s" := by
  have hdata : (lowerStrip s ++ "s").data =
      stripChars (s.data.map Char.toLower) ++ ['s'] := by
    rw [String.data_append]; rfl
  show pyStrip (pyLower (lowerStrip s ++ "s")) = lowerStrip s ++ "s"
  have hmap : (lowerStrip s ++ "s").data.map Char.toLower =
      stripChars (s.data.map Char.toLower) ++ ['s'] := by
    rw [hdata, List.map_append]
    congr 1
    rw [← stripChars_map_toLower, map_toLower_idem,
      stripChars_map_toLower]
  have : pyLower (lowerStrip s ++ "s") =
      ⟨stripChars (s.data.map Char.toLower) ++ ['s']⟩ :=
    congrArg String.mk hmap
  rw [this]
  show (⟨stripChars (stripChars (s.data.map Char.toLower) ++ ['s'])⟩ : String) =
      lowerStrip s ++ "s"
  rw [stripChars_append_s]
  rfl

theorem pyEndsWithS_append_s (s : String) :
    pyEndsWithS (s ++ "s") = true := by
  unfold pyEndsWithS
  rw [String.data_append]
  show ((s.data ++ ['s']).getLast? == some 's') = true
  rw [List.getLast?_concat]
  rfl

/-! Section: Cart-level lemmas -/

theorem cartLookup_eq_none_iff (cart : Cart) (k : String) :
    cartLookup cart k = none ↔ k ∉ cartKeys cart := by
  unfold cartLookup cartKeys
  rw [Option.map_eq_none', List.find?_eq_none]
  constructor
  · intro h hk
    obtain ⟨p, hp, hpk⟩ := List.mem_map.mp hk
    exact h p hp (by simp [hpk])
  · intro h p hp hpk
    exact h (List.mem_map.mpr ⟨p, hp, by simpa using hpk⟩)

theorem cartLookup_isSome_iff (cart : Cart) (k : String) :
    (cartLookup cart k).isSome = true ↔ k ∈ cartKeys cart := by
  rw [Option.isSome_iff_ne_none]
  constructor
  · intro h
    by_contra hk
    exact h ((cartLookup_eq_none_iff cart k).mpr hk)
  · intro hk hnone
    exact (cartLookup_eq_none_iff cart k).mp hnone hk

theorem cartLookup_cartIncr (cart : Cart) (k : String) (q : Int) :
    cartLookup (cartIncr cart k q) k = (cartLookup cart k).map (· + q) := by
  unfold cartLookup cartIncr
  rw [List.find?_map]
  have hp : ((fun p => p.1 == k) ∘
      (fun (p : String × Int) => if p.1 == k then (p.1, p.2 + q) else p)) =
      (fun (p : String × Int) => p.1 == k) := by
    funext p
    by_cases h : p.1 = k <;> simp [h]
  rw [hp]
  cases hf : cart.find? (fun p => p.1 == k) with
  | none => rfl
  | some a =>
      have ha : a.1 = k := by simpa using List.find?_some hf
      simp [ha]

theorem cartLookup_cartDecr (cart : Cart) (k : String) (q : Int) :
    cartLookup (cartDecr cart k q) k = (cartLookup cart k).map (· - q) := by
  unfold cartLookup cartDecr
  rw [List.find?_map]
  have hp : ((fun p => p.1 == k) ∘
      (fun (p : String × Int) => if p.1 == k then (p.1, p.2 - q) else p)) =
      (fun (p : String × Int) => p.1 == k) := by
    funext p
    by_cases h : p.1 = k <;> simp [h]
  rw [hp]
  cases hf : cart.find? (fun p => p.1 == k) with
  | none => rfl
  | some a =>
      have ha : a.1 = k := by simpa using List.find?_some hf
      simp [ha]

theorem cartLookup_cartErase (cart : Cart) (k : String) :
    cartLookup (cartErase cart k) k = none := by
  unfold cartLookup cartErase
  rw [Option.map_eq_none', List.find?_eq_none]
  intro p hp
  have := (List.mem_filter.mp hp).2
  simpa using this

theorem cartLookup_cartInsert_of_none (cart : Cart) (k : String) (q : Int)
    (h : cartLookup cart k = none) :
    cartLookup (cartInsert cart k q) k = some q := by
  unfold cartLookup cartInsert
  unfold cartLookup at h
  rw [Option.map_eq_none'] at h
  rw [List.find?_append, h]
  simp

theorem cartKeys_cartIncr (cart : Cart) (k : String) (q : Int) :
    cartKeys (cartIncr cart k q) = cartKeys cart := by
  unfold cartKeys cartIncr
  rw [List.map_map]
  congr 1
  funext p
  by_cases h : p.1 = k <;> simp [h]

theorem cartKeys_cartDecr (cart : Cart) (k : String) (q : Int) :
    cartKeys (cartDecr cart k q) = cartKeys cart := by
  unfold cartKeys cartDecr
  rw [List.map_map]
  congr 1
  funext p
  by_cases h : p.1 = k <;> simp [h]

theorem cartKeys_cartInsert (cart : Cart) (k : String) (q : Int) :
    cartKeys (cartInsert cart k q) = cartKeys cart ++ [k] := by
  unfold cartKeys cartInsert
  rw [List.map_append]
  rfl

theorem cartKeys_cartErase_sub (cart : Cart) (k k' : String)
    (h : k' ∈ cartKeys (cartErase cart k)) : k' ∈ cartKeys cart := by
  unfold cartKeys cartErase at *
  obtain ⟨p, hp, hpk⟩ := List.mem_map.mp h
  exact List.mem_map.mpr ⟨p, (List.mem_filter.mp hp).1, hpk⟩

/-! Section: Endpoint shape lemmas -/

theorem add_to_cart_of_nonpos (cart : Cart) (name : String) (q : Int)
    (hq : q ≤ 0) : add_to_cart cart name q = (.httpError 400, cart) := by
  unfold add_to_cart
  rw [if_pos hq]

theorem remove_from_cart_of_nonpos (cart : Cart) (name : String) (q : Int)
    (hq : q ≤ 0) : remove_from_cart cart name q = (.httpError 400, cart) := by
  unfold remove_from_cart
  rw [if_pos hq]

theorem add_to_cart_of_contains (cart : Cart) (name : String) (q : Int)
    (hq : 0 < q) (h : cartContains cart (lowerStrip name) = true) :
    add_to_cart cart name q =
      (.ok ⟨true, addedMsg q name, cartIncr cart (lowerStrip name) q,
        totalItems (cartIncr cart (lowerStrip name) q)⟩,
       cartIncr cart (lowerStrip name) q) := by
  simp only [add_to_cart, h]
  rw [if_neg (by omega : ¬ q ≤ 0)]
  simp

theorem add_to_cart_of_not_contains (cart : Cart) (name : String) (q : Int)
    (hq : 0 < q) (h : cartContains cart (lowerStrip name) = false) :
    add_to_cart cart name q =
      (.ok ⟨true, addedMsg q name, cartInsert cart (lowerStrip name) q,
        totalItems (cartInsert cart (lowerStrip name) q)⟩,
       cartInsert cart (lowerStrip name) q) := by
  simp only [add_to_cart, h]
  rw [if_neg (by omega : ¬ q ≤ 0)]
  simp

theorem remove_from_cart_of_none (cart : Cart) (raw : String) (q : Int)
    (hq : 0 < q) (h : cartLookup cart (lowerStrip raw) = none) :
    remove_from_cart cart raw q =
      (.ok ⟨false, notInCartMsg raw, cart, totalItems cart⟩, cart) := by
  simp only [remove_from_cart, h]
  rw [if_neg (by omega : ¬ q ≤ 0)]

theorem remove_from_cart_of_some_le (cart : Cart) (raw : String)
    (q stored : Int) (hq : 0 < q)
    (h : cartLookup cart (lowerStrip raw) = some stored) (hle : stored ≤ q) :
    remove_from_cart cart raw q =
      (.ok ⟨true, removedAllMsg stored raw, cartErase cart (lowerStrip raw),
        totalItems (cartErase cart (lowerStrip raw))⟩,
       cartErase cart (lowerStrip raw)) := by
  simp only [remove_from_cart, h]
  rw [if_neg (by omega : ¬ q ≤ 0), if_pos hle]

theorem remove_from_cart_of_some_gt (cart : Cart) (raw : String)
    (q stored : Int) (hq : 0 < q)
    (h : cartLookup cart (lowerStrip raw) = some stored) (hgt : q < stored) :
    remove_from_cart cart raw q =
      (.ok ⟨true, removedMsg q raw, cartDecr cart (lowerStrip raw) q,
        totalItems (cartDecr cart (lowerStrip raw) q)⟩,
       cartDecr cart (lowerStrip raw) q) := by
  simp only [remove_from_cart, h]
  rw [if_neg (by omega : ¬ q ≤ 0), if_neg (by omega : ¬ stored ≤ q)]

theorem remove_from_cart_not_httpError (cart : Cart) (raw : String)
    (q : Int) (hq : 0 < q) (st : Nat) :
    (remove_from_cart cart raw q).1 ≠ .httpError st := by
  cases hl : cartLookup cart (lowerStrip raw) with
  | none => rw [remove_from_cart_of_none cart raw q hq hl]; simp
  | some stored =>
      by_cases hle : stored ≤ q
      · rw [remove_from_cart_of_some_le cart raw q stored hq hl hle]; simp
      · rw [remove_from_cart_of_some_gt cart raw q stored hq hl (by omega)]
        simp

theorem remove_from_cart_fst_ok (cart : Cart) (raw : String) (q : Int)
    (hq : 0 < q) :
    (remove_from_cart cart raw q).1 =
      .ok (remove_from_cart cart raw q).1.respOf := by
  cases hr : (remove_from_cart cart raw q).1 with
  | ok r => rfl
  | httpError st =>
      exact absurd hr (remove_from_cart_not_httpError cart raw q hq st)

theorem remove_isSuccess_iff (cart : Cart) (raw : String) (q : Int)
    (hq : 0 < q) :
    (remove_from_cart cart raw q).1.isSuccess = true ↔
      lowerStrip raw ∈ cartKeys cart := by
  cases hl : cartLookup cart (lowerStrip raw) with
  | none =>
      rw [remove_from_cart_of_none cart raw q hq hl]
      have := (cartLookup_eq_none_iff cart (lowerStrip raw)).mp hl
      simp [EndpointReply.isSuccess, this]
  | some stored =>
      have hmem : lowerStrip raw ∈ cartKeys cart := by
        rw [← cartLookup_isSome_iff, hl]; rfl
      by_cases hle : stored ≤ q
      · rw [remove_from_cart_of_some_le cart raw q stored hq hl hle]
        simp [EndpointReply.isSuccess, hmem]
      · rw [remove_from_cart_of_some_gt cart raw q stored hq hl (by omega)]
        simp [EndpointReply.isSuccess, hmem]

/-! Section: Client-level lemmas -/

theorem find?_congr_mem {α : Type} {p q : α → Bool} (l : List α)
    (h : ∀ x ∈ l, p x = q x) : l.find? p = l.find? q := by
  induction l with
  | nil => rfl
  | cons a t ih =>
      rw [List.find?_cons, List.find?_cons, h a (List.mem_cons_self a t)]
      cases hq : q a with
      | true => rfl
      | false => exact ih (fun x hx => h x (List.mem_cons_of_mem a hx))

/-- Under the key invariant (keys already lower-cased and stripped), the
client loop's matching test coincides with the spec's four rules. -/
theorem fuzzy_eq_spec_rule (raw : String) {k : String}
    (hk : lowerStrip k = k) :
    fuzzyMatches (lowerStrip raw) (lowerStrip k) =
      specRuleMatch (lowerStrip raw) k := by
  rw [hk]
  unfold fuzzyMatches specRuleMatch
  congr 1
  rw [pyLower_lowerStrip raw, pyLower_eq_self_of_norm hk]

/-- The retry loop returns the endpoint reply for the first fuzzy match in
the snapshot, and the original (not-found) response if nothing matches. -/
theorem fuzzyLoop_eq (cart : Cart) (items : List (String × Int))
    (il : String) (q : Int) (orig : CartResponse) (hq : 0 < q) :
    fuzzyLoop cart items il q orig =
      match items.find? (fun p => fuzzyMatches il (lowerStrip p.1)) with
      | none => (.api orig, cart)
      | some p =>
          (.api (remove_from_cart cart p.1 q).1.respOf,
           (remove_from_cart cart p.1 q).2) := by
  induction items with
  | nil => rfl
  | cons a rest ih =>
      rw [List.find?_cons]
      cases hm : fuzzyMatches il (lowerStrip a.1) with
      | false =>
          simp only [fuzzyLoop, hm, Bool.false_eq_true, if_false]
          exact ih
      | true =>
          simp only [fuzzyLoop, hm, if_true]
          cases hr : (remove_from_cart cart a.1 q).1 with
          | ok r => simp [hr, EndpointReply.respOf]
          | httpError st =>
              exact absurd hr
                (remove_from_cart_not_httpError cart a.1 q hq st)

/-- When the normalized name is a stored key, the client returns the first
endpoint reply directly (no fuzzy chain). -/
theorem grocery_remove_exact (cart : Cart) (raw : String) (q : Int)
    (hq : 0 < q) (hmem : lowerStrip raw ∈ cartKeys cart) :
    grocery_api_remove_item cart raw q =
      (.api (remove_from_cart cart raw q).1.respOf,
       (remove_from_cart cart raw q).2) := by
  have hsucc : (remove_from_cart cart raw q).1.isSuccess = true :=
    (remove_isSuccess_iff cart raw q hq).mpr hmem
  simp only [grocery_api_remove_item]
  cases hr : (remove_from_cart cart raw q).1 with
  | httpError st =>
      exact absurd hr (remove_from_cart_not_httpError cart raw q hq st)
  | ok r =>
      rw [hr] at hsucc
      simp only [EndpointReply.isSuccess] at hsucc
      simp [hsucc, EndpointReply.respOf]

/-! Section: Normalizer lemmas -/

theorem pyEndsWithS_normalize (s : String) :
    pyEndsWithS (normalizeItemName s) = true := by
  unfold normalizeItemName
  cases he : pyEndsWithS (lowerStrip s) with
  | true =>
      cases hl : decide ((lowerStrip s).length > 1) with
      | true => simp [he, hl]
      | false => simp [he, hl]
  | false => simp [he, pyEndsWithS_append_s]

theorem lowerStrip_normalize (s : String) :
    lowerStrip (normalizeItemName s) = normalizeItemName s := by
  unfold normalizeItemName
  cases he : pyEndsWithS (lowerStrip s) with
  | true =>
      cases hl : decide ((lowerStrip s).length > 1) with
      | true => simp [he, hl, lowerStrip_idem]
      | false => simp [he, hl, lowerStrip_idem]
  | false => simp [he, lowerStrip_append_s]

theorem normalizeItemName_idem (s : String) :
    normalizeItemName (normalizeItemName s) = normalizeItemName s := by
  have h1 := pyEndsWithS_normalize s
  have h2 := lowerStrip_normalize s
  generalize hu : normalizeItemName s = u at h1 h2 ⊢
  simp only [normalizeItemName, h2, h1]
  cases hl : decide (u.length > 1) with
  | true => simp
  | false => simp

/-! Section: Claim theorems -/

/-- Claim C5: the name normalizer on the add path is the pure function that,
for every non-empty input, lower-cases the trimmed string, keeps it if it
already ends in `s`, and otherwise appends `s`, producing the canonical
storage key. -/
theorem c5_normalizer_algorithm (s : String) (h : s ≠ "") :
    normalizeItemName s = specNormalize s := by
  unfold normalizeItemName specNormalize
  cases he : pyEndsWithS (lowerStrip s) with
  | true =>
      cases hl : decide ((lowerStrip s).length > 1) with
      | true => simp [he, hl]
      | false => simp [he, hl]
  | false => simp [he]

/-- Witness for `c5_normalizer_algorithm` at the concrete input
`"Apple"`. -/
theorem c5_normalizer_algorithm_witness :
    ("Apple" : String) ≠ "" ∧
    normalizeItemName "Apple" = specNormalize "Apple" :=
  ⟨by decide, c5_normalizer_algorithm "Apple" (by decide)⟩

/-- Claim C10: for every non-empty input, the add-path normalizer's output
ends in `s`, and the normalizer is idempotent: applied to its own output
it returns that output unchanged. -/
theorem c10_normalizer_plural_idem (s : String) (h : s ≠ "") :
    pyEndsWithS (normalizeItemName s) = true ∧
    normalizeItemName (normalizeItemName s) = normalizeItemName s :=
  ⟨pyEndsWithS_normalize s, normalizeItemName_idem s⟩

/-- Witness for `c10_normalizer_plural_idem` at the concrete input
`"Banana"`. -/
theorem c10_normalizer_plural_idem_witness :
    ("Banana" : String) ≠ "" ∧
    (pyEndsWithS (normalizeItemName "Banana") = true ∧
     normalizeItemName (normalizeItemName "Banana") =
       normalizeItemName "Banana") :=
  ⟨by decide, c10_normalizer_plural_idem "Banana" (by decide)⟩

/-- Claim C7: clear empties the cart and reports the number of distinct item
types removed; it is idempotent — clearing the empty cart succeeds with
count 0, and a second clear leaves the same state and returns the same
response as clearing the empty cart. -/
theorem c7_clear_idempotent (cart : Cart) (hwf : (cartKeys cart).Nodup) :
    (clear_cart cart).2 = [] ∧
    (clear_cart cart).1.success = true ∧
    (clear_cart cart).1.message = clearedMsg ((cartKeys cart).dedup.length) ∧
    clear_cart (clear_cart cart).2 = clear_cart [] ∧
    (clear_cart []).1 = ⟨true, clearedMsg 0, [], 0⟩ := by
  refine ⟨rfl, rfl, ?_, rfl, rfl⟩
  rw [List.Nodup.dedup hwf]
  show clearedMsg cart.length = clearedMsg (cartKeys cart).length
  unfold cartKeys
  rw [List.length_map]

/-- Witness for `c7_clear_idempotent` on a concrete two-item cart. -/
theorem c7_clear_idempotent_witness :
    (cartKeys [("apples", 3), ("milks", 1)]).Nodup ∧
    (clear_cart [("apples", 3), ("milks", 1)]).2 = [] ∧
    (clear_cart [("apples", 3), ("milks", 1)]).1.message = clearedMsg 2 :=
  ⟨by decide,
   (c7_clear_idempotent [("apples", 3), ("milks", 1)] (by decide)).1,
   (c7_clear_idempotent [("apples", 3), ("milks", 1)] (by decide)).2.2.1⟩

/-- Claim C8: the remove endpoint taken by itself succeeds exactly when the
lower-cased trimmed request name is literally a stored key; the fuzzy
chain lives in the client, so a direct endpoint call with the singular of
a stored plural (`"banana"` vs stored `"bananas"`) reports not-found and
leaves the cart unchanged, while the client call succeeds via its
view-and-retry loop. -/
theorem c8_endpoint_exact_only (cart : Cart) (raw : String) (q : Int)
    (hq : 0 < q) :
    ((remove_from_cart cart raw q).1.isSuccess = true ↔
      lowerStrip raw ∈ cartKeys cart) ∧
    (remove_from_cart [("bananas", 2)] "banana" 1).1 =
      .ok ⟨false, notInCartMsg "banana", [("bananas", 2)], 2⟩ ∧
    (remove_from_cart [("bananas", 2)] "banana" 1).2 = [("bananas", 2)] ∧
    (grocery_api_remove_item [("bananas", 2)] "banana" 1).1 =
      .api ⟨true, removedMsg 1 "bananas", [("bananas", 1)], 1⟩ ∧
    (grocery_api_remove_item [("bananas", 2)] "banana" 1).2 =
      [("bananas", 1)] :=
  ⟨remove_isSuccess_iff cart raw q hq, by decide, by decide, by decide,
   by decide⟩

/-- Witness for `c8_endpoint_exact_only` at a concrete cart and name. -/
theorem c8_endpoint_exact_only_witness :
    (0 : Int) < 1 ∧
    ((remove_from_cart [("apples", 2)] "Apples" 1).1.isSuccess = true ↔
      lowerStrip "Apples" ∈ cartKeys [("apples", 2)]) :=
  ⟨by decide, (c8_endpoint_exact_only [("apples", 2)] "Apples" 1
    (by decide)).1⟩

/-- Claim C3: once a remove matched a stored key holding `stored`, the
endpoint deletes the key and reports removing all `stored` when
`stored ≤ q`, otherwise decrements by `q` and reports a partial removal;
the resulting quantity is `max 0 (stored - q)`, never negative, and a
result of 0 means the key is absent from the subsequent view snapshot. -/
theorem c3_remove_quantity_resolution (cart : Cart) (raw : String)
    (q stored : Int) (hq : 0 < q)
    (hst : cartLookup cart (lowerStrip raw) = some stored) :
    (stored ≤ q →
        (remove_from_cart cart raw q).1 =
          .ok ⟨true, removedAllMsg stored raw,
            (remove_from_cart cart raw q).2,
            totalItems (remove_from_cart cart raw q).2⟩ ∧
        cartLookup (remove_from_cart cart raw q).2 (lowerStrip raw) =
          none) ∧
    (q < stored →
        (remove_from_cart cart raw q).1 =
          .ok ⟨true, removedMsg q raw,
            (remove_from_cart cart raw q).2,
            totalItems (remove_from_cart cart raw q).2⟩ ∧
        cartLookup (remove_from_cart cart raw q).2 (lowerStrip raw) =
          some (stored - q)) ∧
    qtyOf (remove_from_cart cart raw q).2 (lowerStrip raw) =
      max 0 (stored - q) ∧
    (qtyOf (remove_from_cart cart raw q).2 (lowerStrip raw) = 0 →
      lowerStrip raw ∉
        cartKeys (view_cart (remove_from_cart cart raw q).2).cart_items) := by
  by_cases hle : stored ≤ q
  · have he := remove_from_cart_of_some_le cart raw q stored hq hst hle
    rw [he]
    have hnone := cartLookup_cartErase cart (lowerStrip raw)
    refine ⟨fun _ => ⟨rfl, hnone⟩, fun hgt => absurd hle (by omega), ?_, ?_⟩
    · show (cartLookup (cartErase cart (lowerStrip raw))
        (lowerStrip raw)).getD 0 = max 0 (stored - q)
      rw [hnone]
      show (0 : Int) = max 0 (stored - q)
      omega
    · intro _
      show lowerStrip raw ∉ cartKeys (cartErase cart (lowerStrip raw))
      exact (cartLookup_eq_none_iff _ _).mp hnone
  · have hgt : q < stored := by omega
    have he := remove_from_cart_of_some_gt cart raw q stored hq hst hgt
    rw [he]
    have hsome : cartLookup (cartDecr cart (lowerStrip raw) q)
        (lowerStrip raw) = some (stored - q) := by
      rw [cartLookup_cartDecr, hst]
      rfl
    refine ⟨fun hle2 => absurd hle2 hle, fun _ => ⟨rfl, hsome⟩, ?_, ?_⟩
    · show (cartLookup (cartDecr cart (lowerStrip raw) q)
        (lowerStrip raw)).getD 0 = max 0 (stored - q)
      rw [hsome]
      show stored - q = max 0 (stored - q)
      omega
    · intro h0
      rw [show qtyOf (cartDecr cart (lowerStrip raw) q) (lowerStrip raw) =
        stored - q from by unfold qtyOf; rw [hsome]; rfl] at h0
      omega

/-- Witness for `c3_remove_quantity_resolution` at a concrete cart. -/
theorem c3_remove_quantity_resolution_witness :
    (0 : Int) < 2 ∧
    cartLookup [("apples", 5)] (lowerStrip "apples") = some 5 ∧
    ((2 : Int) < 5 →
      (remove_from_cart [("apples", 5)] "apples" 2).1 =
        .ok ⟨true, removedMsg 2 "apples",
          (remove_from_cart [("apples", 5)] "apples" 2).2,
          totalItems (remove_from_cart [("apples", 5)] "apples" 2).2⟩ ∧
      cartLookup (remove_from_cart [("apples", 5)] "apples" 2).2
        (lowerStrip "apples") = some (5 - 2)) :=
  ⟨by decide, by decide,
   (c3_remove_quantity_resolution [("apples", 5)] "apples" 2 5 (by decide)
     (by decide)).2.1⟩

/-- Claim C6: for a canonical key and positive quantities, two adds
accumulate to `q1 + q2`; add inserts when the key is absent, increments
when present, and succeeds whenever the quantity is positive. -/
theorem c6_add_accumulates (cart : Cart) (key : String) (q1 q2 : Int)
    (hkey : lowerStrip key = key) (h1 : 0 < q1) (h2 : 0 < q2) :
    (add_to_cart cart key q1).1.isSuccess = true ∧
    (add_to_cart (add_to_cart cart key q1).2 key q2).1.isSuccess = true ∧
    (cartLookup cart key = none →
        cartLookup (add_to_cart (add_to_cart cart key q1).2 key q2).2 key =
          some (q1 + q2)) ∧
    (∀ n, cartLookup cart key = some n →
        cartLookup (add_to_cart cart key q1).2 key = some (n + q1)) := by
  cases hc : cartContains cart key with
  | false =>
      have hnone : cartLookup cart key = none := by
        unfold cartContains at hc
        cases hlk : cartLookup cart key with
        | none => rfl
        | some n => rw [hlk] at hc; cases hc
      have he1 := add_to_cart_of_not_contains cart key q1 h1
        (by rw [hkey]; exact hc)
      rw [hkey] at he1
      have hl1 : cartLookup (add_to_cart cart key q1).2 key = some q1 := by
        rw [he1]
        exact cartLookup_cartInsert_of_none cart key q1 hnone
      have hc1 : cartContains (add_to_cart cart key q1).2 key = true := by
        unfold cartContains
        rw [hl1]
        rfl
      have he2 := add_to_cart_of_contains (add_to_cart cart key q1).2 key q2
        h2 (by rw [hkey]; exact hc1)
      rw [hkey] at he2
      refine ⟨by rw [he1]; rfl, by rw [he2]; rfl, fun _ => ?_, ?_⟩
      · rw [he2]
        show cartLookup (cartIncr (add_to_cart cart key q1).2 key q2) key =
          some (q1 + q2)
        rw [cartLookup_cartIncr, hl1]
        rfl
      · intro n hn
        rw [hnone] at hn
        cases hn
  | true =>
      have he1 := add_to_cart_of_contains cart key q1 h1
        (by rw [hkey]; exact hc)
      rw [hkey] at he1
      have hsome : ∃ n, cartLookup cart key = some n := by
        unfold cartContains at hc
        cases hlk : cartLookup cart key with
        | none => rw [hlk] at hc; cases hc
        | some n => exact ⟨n, rfl⟩
      obtain ⟨n, hn⟩ := hsome
      have hl1 : cartLookup (add_to_cart cart key q1).2 key =
          some (n + q1) := by
        rw [he1]
        show cartLookup (cartIncr cart key q1) key = some (n + q1)
        rw [cartLookup_cartIncr, hn]
        rfl
      have hc1 : cartContains (add_to_cart cart key q1).2 key = true := by
        unfold cartContains
        rw [hl1]
        rfl
      have he2 := add_to_cart_of_contains (add_to_cart cart key q1).2 key q2
        h2 (by rw [hkey]; exact hc1)
      rw [hkey] at he2
      refine ⟨by rw [he1]; rfl, by rw [he2]; rfl, fun habs => ?_, ?_⟩
      · rw [hn] at habs
        cases habs
      · intro m hm
        rw [he1]
        show cartLookup (cartIncr cart key q1) key = some (m + q1)
        rw [cartLookup_cartIncr, hm]
        rfl

/-- Witness for `c6_add_accumulates` with `key = "apples"`, `q1 = 2`,
`q2 = 3` on the empty cart. -/
theorem c6_add_accumulates_witness :
    lowerStrip "apples" = "apples" ∧
    cartLookup ([] : Cart) "apples" = none ∧
    cartLookup
      (add_to_cart (add_to_cart [] "apples" 2).2 "apples" 3).2 "apples" =
      some (2 + 3) :=
  ⟨by decide, by decide,
   (c6_add_accumulates [] "apples" 2 3 (by decide) (by decide)
     (by decide)).2.2.1 (by decide)⟩

/-- Claim C2 counterexample: with `"apples"` stored and raw name
`"Apples"`, the verbatim name is not a stored key, yet the first remove
attempt succeeds — so the first step does not look the raw name up
verbatim (it lower-cases and trims first). -/
theorem c2_counterexample : ¬ C2Claim [("apples", 2)] "Apples" 1 := by
  unfold C2Claim
  decide

/-- Claim C2, amended: the first step of every remove looks up the
lower-cased, trimmed item name against the store's keys; when that lookup
finds a key the client returns the first endpoint reply directly (which
succeeds), and only when it finds nothing does the endpoint report
not-found with the cart unchanged, sending the client into the fuzzy
chain. -/
theorem c2_remove_first_step_normalized (cart : Cart) (raw : String)
    (q : Int) (hq : 0 < q) :
    (lowerStrip raw ∈ cartKeys cart →
        grocery_api_remove_item cart raw q =
          (.api (remove_from_cart cart raw q).1.respOf,
           (remove_from_cart cart raw q).2) ∧
        (remove_from_cart cart raw q).1.isSuccess = true) ∧
    (lowerStrip raw ∉ cartKeys cart →
        remove_from_cart cart raw q =
          (.ok ⟨false, notInCartMsg raw, cart, totalItems cart⟩, cart)) := by
  constructor
  · intro hmem
    exact ⟨grocery_remove_exact cart raw q hq hmem,
      (remove_isSuccess_iff cart raw q hq).mpr hmem⟩
  · intro hmem
    exact remove_from_cart_of_none cart raw q hq
      ((cartLookup_eq_none_iff _ _).mpr hmem)

/-- Witness for `c2_remove_first_step_normalized` on a concrete cart. -/
theorem c2_remove_first_step_normalized_witness :
    (0 : Int) < 1 ∧
    (lowerStrip "Apples" ∈ cartKeys [("apples", 2)] →
      grocery_api_remove_item [("apples", 2)] "Apples" 1 =
        (.api (remove_from_cart [("apples", 2)] "Apples" 1).1.respOf,
         (remove_from_cart [("apples", 2)] "Apples" 1).2) ∧
      (remove_from_cart [("apples", 2)] "Apples" 1).1.isSuccess = true) :=
  ⟨by decide,
   (c2_remove_first_step_normalized [("apples", 2)] "Apples" 1
     (by decide)).1⟩

/-- Claim C1 counterexample: with keys `["apple", "apples"]` (both
insertable through the add endpoint) and raw name `"Apples"`, the raw name
matches no stored key exactly and the first key satisfying the fuzzy rules
is `"apple"` — but the code never runs the fallback: the endpoint
normalizes `"Apples"` to `"apples"` and removes from that key instead. -/
theorem c1_counterexample :
    ¬ C1Claim [("apple", 1), ("apples", 2)] "Apples" 1 := by
  intro h
  have h2 := (h (by decide)).1 "apple" (by decide)
  exact absurd h2 (by decide)

/-- Claim C1, amended: for every remove whose *lower-cased, trimmed* raw
name matches no stored key, the fuzzy fallback scans the keys in iteration
order and the operation becomes an endpoint remove of the first key
satisfying rules (a)-(d); when no key satisfies any rule the operation
returns the not-found response with the cart unchanged (no exception). -/
theorem c1_fuzzy_fallback (cart : Cart) (raw : String) (q : Int)
    (hnorm : ∀ k ∈ cartKeys cart, lowerStrip k = k) (hq : 0 < q)
    (h : lowerStrip raw ∉ cartKeys cart) :
    (∀ k, specFirstFuzzy cart raw = some k →
        grocery_api_remove_item cart raw q =
          (.api (remove_from_cart cart k q).1.respOf,
           (remove_from_cart cart k q).2)) ∧
    (specFirstFuzzy cart raw = none →
        grocery_api_remove_item cart raw q =
          (.api ⟨false, notInCartMsg raw, cart, totalItems cart⟩, cart)) := by
  have hl : cartLookup cart (lowerStrip raw) = none :=
    (cartLookup_eq_none_iff _ _).mpr h
  have hfirst := remove_from_cart_of_none cart raw q hq hl
  have hred : grocery_api_remove_item cart raw q =
      fuzzyLoop cart cart (lowerStrip raw) q
        ⟨false, notInCartMsg raw, cart, totalItems cart⟩ := by
    simp only [grocery_api_remove_item, hfirst]
    rfl
  rw [hred, fuzzyLoop_eq cart cart (lowerStrip raw) q _ hq]
  have hfind : cart.find?
      (fun p => fuzzyMatches (lowerStrip raw) (lowerStrip p.1)) =
      cart.find? (fun p => specRuleMatch (lowerStrip raw) p.1) :=
    find?_congr_mem cart (fun x hx =>
      fuzzy_eq_spec_rule raw (hnorm x.1 (List.mem_map.mpr ⟨x, hx, rfl⟩)))
  rw [hfind]
  constructor
  · intro k hk
    unfold specFirstFuzzy at hk
    cases hf : cart.find? (fun p => specRuleMatch (lowerStrip raw) p.1) with
    | none => rw [hf] at hk; cases hk
    | some p =>
        rw [hf] at hk
        simp only [Option.map_some', Option.some.injEq] at hk
        subst hk
        rfl
  · intro hnone
    unfold specFirstFuzzy at hnone
    rw [Option.map_eq_none'] at hnone
    rw [hnone]

/-- Witness for `c1_fuzzy_fallback`: removing `"banana"` with `"bananas"`
stored goes through rule (b) and removes from `"bananas"`. -/
theorem c1_fuzzy_fallback_witness :
    specFirstFuzzy [("bananas", 2)] "banana" = some "bananas" ∧
    grocery_api_remove_item [("bananas", 2)] "banana" 1 =
      (.api (remove_from_cart [("bananas", 2)] "bananas" 1).1.respOf,
       (remove_from_cart [("bananas", 2)] "bananas" 1).2) :=
  ⟨by decide,
   (c1_fuzzy_fallback [("bananas", 2)] "banana" 1
     (by decide) (by decide) (by decide)).1 "bananas" (by decide)⟩

/-- Claim C4 counterexample: the add endpoint accepts a whitespace-only
name: `add_to_cart` with `"   "` succeeds and stores the empty key, so an
empty-after-trimming name is not rejected at the endpoint. -/
theorem c4_counterexample : ¬ C4EmptyNameClaim [] "   " 3 := by
  unfold C4EmptyNameClaim
  decide

/-- Claim C4, amended: quantity `≤ 0` is rejected everywhere — the
endpoints answer HTTP 400 and the agent tools answer the caught
`ValueError` — and an item name empty after trimming is rejected at the
agent-tool layer only; in every rejected case the cart is unchanged. -/
theorem c4_validation (cart : Cart) (q : Int) (name : String) :
    (q ≤ 0 → add_to_cart cart name q = (.httpError 400, cart)) ∧
    (q ≤ 0 → remove_from_cart cart name q = (.httpError 400, cart)) ∧
    (q < 1 → agent_add_to_cart cart q name =
        (.error (agentErrorMsg "Quantity must be positive"), cart)) ∧
    (q < 1 → agent_remove_from_cart cart q name =
        (.error (agentErrorMsg "Quantity must be positive"), cart)) ∧
    (1 ≤ q → pyStrip name = "" → agent_add_to_cart cart q name =
        (.error (agentErrorMsg "Item name cannot be empty"), cart)) ∧
    (1 ≤ q → pyStrip name = "" → agent_remove_from_cart cart q name =
        (.error (agentErrorMsg "Item name cannot be empty"), cart)) := by
  refine ⟨fun h => add_to_cart_of_nonpos cart name q h,
          fun h => remove_from_cart_of_nonpos cart name q h,
          ?_, ?_, ?_, ?_⟩
  · intro h
    unfold agent_add_to_cart
    rw [if_pos h]
  · intro h
    unfold agent_remove_from_cart
    rw [if_pos h]
  · intro hq hn
    have hcond : (name == "" || (pyStrip name).length == 0) = true := by
      rw [hn]
      simp
    unfold agent_add_to_cart
    rw [if_neg (by omega : ¬ q < 1), if_pos hcond]
  · intro hq hn
    have hcond : (name == "" || (pyStrip name).length == 0) = true := by
      rw [hn]
      simp
    unfold agent_remove_from_cart
    rw [if_neg (by omega : ¬ q < 1), if_pos hcond]

/-- Witness for `c4_validation` at concrete rejected requests. -/
theorem c4_validation_witness :
    add_to_cart [("apples", 1)] "milk" 0 = (.httpError 400, [("apples", 1)]) ∧
    agent_add_to_cart [("apples", 1)] 0 "milk" =
      (.error (agentErrorMsg "Quantity must be positive"), [("apples", 1)]) ∧
    agent_remove_from_cart [("apples", 1)] 2 "  " =
      (.error (agentErrorMsg "Item name cannot be empty"), [("apples", 1)]) :=
  ⟨(c4_validation [("apples", 1)] 0 "milk").1 (by decide),
   (c4_validation [("apples", 1)] 0 "milk").2.2.1 (by decide),
   (c4_validation [("apples", 1)] 2 "  ").2.2.2.2.2 (by decide) (by decide)⟩

/-- Keys after an add are old keys or the normalized new key. -/
theorem cartKeys_add_sub (cart : Cart) (name : String) (q : Int) :
    ∀ k ∈ cartKeys (add_to_cart cart name q).2,
      k ∈ cartKeys cart ∨ k = lowerStrip name := by
  intro k hk
  by_cases hq : q ≤ 0
  · rw [add_to_cart_of_nonpos cart name q hq] at hk
    exact Or.inl hk
  · cases hc : cartContains cart (lowerStrip name) with
    | true =>
        rw [add_to_cart_of_contains cart name q (by omega) hc] at hk
        have hk2 : k ∈ cartKeys (cartIncr cart (lowerStrip name) q) := hk
        rw [cartKeys_cartIncr] at hk2
        exact Or.inl hk2
    | false =>
        rw [add_to_cart_of_not_contains cart name q (by omega) hc] at hk
        have hk2 : k ∈ cartKeys (cartInsert cart (lowerStrip name) q) := hk
        rw [cartKeys_cartInsert] at hk2
        rcases List.mem_append.mp hk2 with h1 | h1
        · exact Or.inl h1
        · exact Or.inr (by simpa using h1)

/-- A remove never introduces a key. -/
theorem cartKeys_remove_sub (cart : Cart) (name : String) (q : Int) :
    ∀ k ∈ cartKeys (remove_from_cart cart name q).2, k ∈ cartKeys cart := by
  intro k hk
  by_cases hq : q ≤ 0
  · rw [remove_from_cart_of_nonpos cart name q hq] at hk
    exact hk
  · cases hl : cartLookup cart (lowerStrip name) with
    | none =>
        rw [remove_from_cart_of_none cart name q (by omega) hl] at hk
        exact hk
    | some stored =>
        by_cases hle : stored ≤ q
        · rw [remove_from_cart_of_some_le cart name q stored (by omega)
            hl hle] at hk
          have hk2 : k ∈ cartKeys (cartErase cart (lowerStrip name)) := hk
          exact cartKeys_cartErase_sub cart (lowerStrip name) k hk2
        · rw [remove_from_cart_of_some_gt cart name q stored (by omega)
            hl (by omega)] at hk
          have hk2 : k ∈ cartKeys (cartDecr cart (lowerStrip name) q) := hk
          rw [cartKeys_cartDecr] at hk2
          exact hk2

/-- Claim C9: starting from the empty cart, every key ever present in the
storage equals its own `lower().strip()` — the add endpoint normalizes
before inserting or incrementing, and remove and clear never introduce
keys. -/
theorem c9_keys_normalized (cart : Cart) (h : ReachableCart cart) :
    ∀ k ∈ cartKeys cart, lowerStrip k = k := by
  induction h with
  | empty => intro k hk; simp [cartKeys] at hk
  | addStep cart name q hr ih =>
      intro k hk
      rcases cartKeys_add_sub cart name q k hk with h1 | h1
      · exact ih k h1
      · rw [h1]
        exact lowerStrip_idem name
  | removeStep cart name q hr ih =>
      intro k hk
      exact ih k (cartKeys_remove_sub cart name q k hk)
  | clearStep cart hr ih =>
      intro k hk
      simp [clear_cart, cartKeys] at hk

/-- Witness for `c9_keys_normalized` on the cart reached by adding
`" Apple "` to the empty cart. -/
theorem c9_keys_normalized_witness :
    "apple" ∈ cartKeys ((add_to_cart [] " Apple " 2).2) ∧
    lowerStrip "apple" = "apple" :=
  ⟨by decide,
   c9_keys_normalized _
     (ReachableCart.addStep [] " Apple " 2 ReachableCart.empty)
     "apple" (by decide)⟩
